import Mathlib

/-!
Shallow embedding of the concurrent memcache loader (`memc_load.py`):
the record parser, the write executor with retry/backoff, the per-file
streaming loop with its worker-liveness check, and the error-rate
classification, together with theorems settling the specification claims.
-/

namespace MemcLoad

/-- Decidable equality for `Except`, needed to evaluate embedded functions
that model raising Python code. -/
instance {ε α : Type} [DecidableEq ε] [DecidableEq α] : DecidableEq (Except ε α)
  | .ok a, .ok b =>
    if h : a = b then .isTrue (by rw [h]) else .isFalse (by intro hc; cases hc; exact h rfl)
  | .error e, .error f =>
    if h : e = f then .isTrue (by rw [h]) else .isFalse (by intro hc; cases hc; exact h rfl)
  | .ok _, .error _ => .isFalse (by intro hc; cases hc)
  | .error _, .ok _ => .isFalse (by intro hc; cases hc)

/-! ### Python string primitives -/

/-- Python whitespace characters recognised by `str.strip()` (ASCII subset). -/
def isPySpace (c : Char) : Bool :=
  c = ' ' || c = '\t' || c = '\n' || c = '\r' || c = '\x0B' || c = '\x0C'

/-- Python `str.strip()`: drop leading and trailing whitespace. -/
def pyStrip (s : String) : String :=
  String.mk (((s.toList.dropWhile isPySpace).reverse.dropWhile isPySpace).reverse)

/-- Split a character list at every occurrence of `sep`, keeping empty
segments; the empty list yields one empty segment, matching Python
`str.split(sep)` for a one-character separator. -/
def splitChar (sep : Char) : List Char → List (List Char)
  | [] => [[]]
  | c :: rest =>
    let r := splitChar sep rest
    if c = sep then [] :: r
    else
      match r with
      | h :: t => (c :: h) :: t
      | [] => [[c]]

/-- Python `s.split(sep)` for a one-character separator. -/
def pySplit (s : String) (sep : Char) : List String :=
  (splitChar sep s.toList).map String.mk

/-- CPython numeric-literal underscore rule: every underscore must sit
directly between two digits. -/
def underscoresOk : List Char → Bool
  | [] => true
  | '_' :: _ => false
  | a :: '_' :: rest =>
    match rest with
    | b :: _ => a.isDigit && b.isDigit && underscoresOk rest
    | [] => false
  | _ :: rest => underscoresOk rest

/-- Value of a digit string read in base 10. -/
def digitsToNat (cs : List Char) : ℕ :=
  cs.foldl (fun acc c => 10 * acc + (c.toNat - '0'.toNat)) 0

/-- Parse a non-empty all-digit character list. -/
def parseDigits? (cs : List Char) : Option ℕ :=
  if cs.isEmpty then none
  else if cs.all Char.isDigit then some (digitsToNat cs) else none

/-- Integer grammar of Python `int(str)`: optional sign then digits. -/
def pyIntOfChars : List Char → Option ℤ
  | '+' :: rest => (parseDigits? rest).map (fun n => (n : ℤ))
  | '-' :: rest => (parseDigits? rest).map (fun n => -(n : ℤ))
  | cs => (parseDigits? cs).map (fun n => (n : ℤ))

/-- Python `int(s)`: strip whitespace, validate underscores, then parse
an optionally signed digit string; `none` models `ValueError`. -/
def pyInt (s : String) : Option ℤ :=
  let cs := (pyStrip s).toList
  if underscoresOk cs then pyIntOfChars (cs.filter (· != '_')) else none

/-- Result of Python `float(str)`: a finite value represented exactly as
`mant * 10 ^ exp10` (decimal literals are exact in this form), a signed
infinity, or a nan. -/
inductive PyFloat
  | finite (mant : ℤ) (exp10 : ℤ)
  | inf (neg : Bool)
  | nan
  deriving DecidableEq, Repr

/-- Mantissa grammar: `digits`, `digits.`, `digits.digits` or `.digits`;
returns the combined digit value and the number of fractional digits. -/
def parseMantissa? (cs : List Char) : Option (ℕ × ℕ) :=
  let ip := cs.takeWhile Char.isDigit
  let rest := cs.dropWhile Char.isDigit
  match rest with
  | [] => if ip.isEmpty then none else some (digitsToNat ip, 0)
  | '.' :: fp =>
    if fp.all Char.isDigit && !(ip.isEmpty && fp.isEmpty) then
      some (digitsToNat (ip ++ fp), fp.length)
    else none
  | _ => none

/-- Exponent grammar: optionally signed digits. -/
def parseExp? (cs : List Char) : Option ℤ :=
  pyIntOfChars cs

/-- Float grammar of Python `float(str)` after stripping and underscore
removal: optional sign, then `inf`/`infinity`/`nan` (case-insensitive) or a
mantissa with optional exponent. -/
def pyFloatOfChars (cs : List Char) : Option PyFloat :=
  let sr : Bool × List Char :=
    match cs with
    | '+' :: r => (false, r)
    | '-' :: r => (true, r)
    | r => (false, r)
  let neg := sr.1
  let rest := sr.2
  let low := rest.map Char.toLower
  if low = "inf".toList || low = "infinity".toList then some (.inf neg)
  else if low = "nan".toList then some .nan
  else
    let m := rest.takeWhile (fun c => c != 'e' && c != 'E')
    let e := rest.dropWhile (fun c => c != 'e' && c != 'E')
    match e with
    | [] =>
      (parseMantissa? m).map (fun p =>
        .finite (if neg then -(p.1 : ℤ) else (p.1 : ℤ)) (-(p.2 : ℤ)))
    | _ :: ecs =>
      match parseMantissa? m, parseExp? ecs with
      | some p, some ex =>
        some (.finite (if neg then -(p.1 : ℤ) else (p.1 : ℤ)) (ex - (p.2 : ℤ)))
      | _, _ => none

/-- Python `float(s)`; `none` models `ValueError`. -/
def pyFloat (s : String) : Option PyFloat :=
  let cs := (pyStrip s).toList
  if underscoresOk cs then pyFloatOfChars (cs.filter (· != '_')) else none

/-! ### The record parser (`parse_appsinstalled`) -/

/-- Python exceptions that `parse_appsinstalled` can raise. -/
inductive PyExc
  | valueError
  | attributeError
  deriving DecidableEq, Repr

/-- Latitude/longitude slot of a parsed record: either the parsed float or,
when float conversion failed, the original field string (the rebinding
`lat, lon = float(lat), float(lon)` assigns nothing when it raises). -/
inductive GeoVal
  | flt (v : PyFloat)
  | str (s : String)
  deriving DecidableEq, Repr

/-- The `AppsInstalled` namedtuple. -/
structure AppsInstalled where
  dev_type : String
  dev_id : String
  lat : GeoVal
  lon : GeoVal
  apps : List ℤ
  deriving DecidableEq, Repr

/-- `parse_appsinstalled(line)`.  Mirrors the source line by line:
strip and split on tab; fewer than 5 fields returns `None`; more than 5
fields raises `ValueError` from the 5-way unpacking; empty `dev_type` or
`dev_id` returns `None`; the apps field is split on commas and each token
passed to `int` — if any token fails, the fallback comprehension calls the
nonexistent method `a.isidigit()` and so raises `AttributeError`; failed
float conversion of `lat`/`lon` leaves both fields as the original strings. -/
def parse_appsinstalled (line : String) : Except PyExc (Option AppsInstalled) :=
  let line_parts := pySplit (pyStrip line) '\t'
  if line_parts.length < 5 then .ok none
  else
    match line_parts with
    | [dev_type, dev_id, lat, lon, raw_apps] =>
      if dev_type = "" || dev_id = "" then .ok none
      else
        let tokens := pySplit raw_apps ','
        if tokens.all (fun a => (pyInt a).isSome) then
          let apps := tokens.filterMap pyInt
          let geo : GeoVal × GeoVal :=
            match pyFloat lat, pyFloat lon with
            | some fl, some fo => (.flt fl, .flt fo)
            | _, _ => (.str lat, .str lon)
          .ok (some ⟨dev_type, dev_id, geo.1, geo.2, apps⟩)
        else .error .attributeError
    | _ => .error .valueError

/-! ### The write executor (`insert_appsinstalled`) -/

/-- Outcome of one `memc.set(key, packed)` call: the client returned a
truthy value, returned a falsy value, or raised an exception. -/
inductive SetOutcome
  | succ
  | fail
  | exc
  deriving DecidableEq, Repr

/-- The retry loop `for n in range(MEMC_MAX_RETRIES)` of
`insert_appsinstalled`: attempt `memc.set`; on a truthy result break; on a
falsy result sleep `backoff_factor * 2 ^ n` seconds and try again; a raised
exception aborts the loop.  Returns the final value of `ok` (or the raised
exception), the number of `set` calls issued, and the list of sleeps. -/
def retryGo (setOutcome : ℕ → SetOutcome) (factor : ℚ) : ℕ → ℕ → Except Unit Bool × ℕ × List ℚ
  | _, 0 => (.ok false, 0, [])
  | n, fuel + 1 =>
    match setOutcome n with
    | .succ => (.ok true, 1, [])
    | .exc => (.error (), 1, [])
    | .fail =>
      let r := retryGo setOutcome factor (n + 1) fuel
      (r.1, r.2.1 + 1, factor * 2 ^ n :: r.2.2)

/-- The whole retry loop, starting at attempt index 0 with `ok = False`. -/
def memcRetry (setOutcome : ℕ → SetOutcome) (maxRetries : ℕ) (factor : ℚ) :
    Except Unit Bool × ℕ × List ℚ :=
  retryGo setOutcome factor 0 maxRetries

/-- A pooled memcache client connection. -/
abbrev Conn := ℕ

/-- Observable outcome of one `insert_appsinstalled` call: the returned
value (or a propagated exception), the final state of the per-shard pool,
whether the `get`-or-create connection path ran, the number of `set` calls
issued, the sleeps performed, and the write key that was built. -/
structure InsertOut where
  result : Except PyExc Bool
  pool : List Conn
  acquired : Bool
  attempts : ℕ
  sleeps : List ℚ
  key : String
  deriving DecidableEq, Repr

/-- `insert_appsinstalled(memc_pool, memc_addr, appsinstalled, dry_run)`.
Builds the key `"{dev_type}:{dev_id}"` and the packed value (the
serialization format `appsinstalled_pb2.UserApps` is not under `src/`;
modelled from the spec, which treats it as an external, total
value encoder: "any byte-stable structured encoder ... is acceptable").
If `dry_run`, only logs and falls through to `return True`.  Otherwise
takes a connection from the pool, or on `Queue.Empty` creates a fresh one
(`freshConn`); runs the retry loop; on normal completion puts the
connection back (Python `Queue.put` appends) and returns `ok`; an exception
from `memc.set` is caught by the outer handler which returns `False`
without returning the connection to the pool. -/
def insert_appsinstalled (memc_pool : List Conn) (freshConn : Conn) (memc_addr : String)
    (appsinstalled : AppsInstalled) (setOutcome : ℕ → SetOutcome)
    (dry_run : Bool) (maxRetries : ℕ) (backoffFactor : ℚ) : InsertOut :=
  let key := appsinstalled.dev_type ++ ":" ++ appsinstalled.dev_id
  if dry_run then
    { result := .ok true, pool := memc_pool, acquired := false
      attempts := 0, sleeps := [], key := key }
  else
    let mc : Conn × List Conn :=
      match memc_pool with
      | c :: cs => (c, cs)
      | [] => (freshConn, [])
    let r := memcRetry setOutcome maxRetries backoffFactor
    match r.1 with
    | .ok ok =>
      { result := .ok ok, pool := mc.2 ++ [mc.1], acquired := true
        attempts := r.2.1, sleeps := r.2.2, key := key }
    | .error _ =>
      { result := .ok false, pool := mc.2, acquired := true
        attempts := r.2.1, sleeps := r.2.2, key := key }

/-! ### The file loader streaming loop (`handle_logfile`) -/

/-- The command-line options consumed by `handle_logfile`. -/
structure Options where
  idfa : String
  gaid : String
  adid : String
  dvid : String
  dry : Bool
  deriving DecidableEq, Repr

/-- The `device_memc` dictionary lookup `device_memc.get(dev_type)`. -/
def deviceMemcGet (o : Options) (dev_type : String) : Option String :=
  if dev_type = "idfa" then some o.idfa
  else if dev_type = "gaid" then some o.gaid
  else if dev_type = "adid" then some o.adid
  else if dev_type = "dvid" then some o.dvid
  else none

/-- One task placed on the job queue:
`(pools[memc_addr], memc_addr, appsinstalled, options.dry)`. -/
structure WorkItem where
  pool_key : String
  memc_addr : String
  appsinstalled : AppsInstalled
  dry : Bool
  deriving DecidableEq, Repr

/-- Producer-side state of the streaming loop: the file error counter, the
items enqueued so far, and how many worker-liveness checks have run. -/
structure StreamState where
  errors : ℕ
  enqueued : List WorkItem
  checks : ℕ
  deriving DecidableEq, Repr

/-- The `for line in fd` loop of `handle_logfile`.  Each line is stripped;
blank lines are skipped; a parse returning `None` increments `errors`; a
parse that raises propagates (aborting the file); a missing or falsy shard
address increments `errors` and logs; otherwise a `WorkItem` is enqueued
and THEN `all(thread.is_alive() for thread in workers)` is evaluated — the
result of the k-th such check is `(aliveAt k).all id` — and a failed check
breaks out of the loop. -/
def streamLines (o : Options) (aliveAt : ℕ → List Bool) :
    List String → StreamState → Except PyExc StreamState
  | [], st => .ok st
  | l :: rest, st =>
    let line := pyStrip l
    if line = "" then streamLines o aliveAt rest st
    else
      match parse_appsinstalled line with
      | .error e => .error e
      | .ok none => streamLines o aliveAt rest { st with errors := st.errors + 1 }
      | .ok (some appsinstalled) =>
        match deviceMemcGet o appsinstalled.dev_type with
        | none => streamLines o aliveAt rest { st with errors := st.errors + 1 }
        | some memc_addr =>
          if memc_addr = "" then
            streamLines o aliveAt rest { st with errors := st.errors + 1 }
          else
            let st' : StreamState :=
              { st with
                enqueued := st.enqueued ++ [⟨memc_addr, memc_addr, appsinstalled, o.dry⟩]
                checks := st.checks + 1 }
            if (aliveAt st.checks).all id then streamLines o aliveAt rest st'
            else .ok st'

/-- The same streaming loop with the worker-liveness break removed: every
line of the file is processed.  Used to state what streaming does when no
liveness check ever fails. -/
def streamLinesNoStop (o : Options) :
    List String → StreamState → Except PyExc StreamState
  | [], st => .ok st
  | l :: rest, st =>
    let line := pyStrip l
    if line = "" then streamLinesNoStop o rest st
    else
      match parse_appsinstalled line with
      | .error e => .error e
      | .ok none => streamLinesNoStop o rest { st with errors := st.errors + 1 }
      | .ok (some appsinstalled) =>
        match deviceMemcGet o appsinstalled.dev_type with
        | none => streamLinesNoStop o rest { st with errors := st.errors + 1 }
        | some memc_addr =>
          if memc_addr = "" then
            streamLinesNoStop o rest { st with errors := st.errors + 1 }
          else
            streamLinesNoStop o rest
              { st with
                enqueued := st.enqueued ++ [⟨memc_addr, memc_addr, appsinstalled, o.dry⟩]
                checks := st.checks + 1 }

/-! ### Error-rate classification (`handle_logfile`, DONE phase) -/

/-- `NORMAL_ERR_RATE = 0.01`. -/
def NORMAL_ERR_RATE : ℚ := 1 / 100

/-- Outcome of the final error-rate check of `handle_logfile`. -/
inductive LoadClass
  | acceptable
  | highErrorRate
  | skipped
  deriving DecidableEq, Repr

/-- The `if processed:` block: when `processed` is nonzero, compute
`err_rate = float(errors) / processed` and log "Acceptable error rate" when
`err_rate < NORMAL_ERR_RATE`, "High error rate" otherwise; when `processed`
is zero the check is skipped. -/
def classifyLoad (processed errors : ℕ) : LoadClass :=
  if processed ≠ 0 then
    if (errors : ℚ) / (processed : ℚ) < NORMAL_ERR_RATE then .acceptable
    else .highErrorRate
  else .skipped

/-- The tail of `handle_logfile`: classify the error rate, then
`return fn` — the file path is returned in every case. -/
def handle_logfile_result (fn : String) (processed errors : ℕ) : LoadClass × String :=
  (classifyLoad processed errors, fn)

/-! ### Shared concrete data for witnesses and counterexamples -/

/-- The default shard routing options of the command line. -/
def defaultOpts : Options :=
  ⟨"127.0.0.1:33013", "127.0.0.1:33014", "127.0.0.1:33015", "127.0.0.1:33016", false⟩

/-- A worker-liveness snapshot in which worker 0 has terminated while the
other three of the default four workers are still alive. -/
def oneWorkerDead : ℕ → List Bool := fun _ => [false, true, true, true]

/-- A worker-liveness snapshot in which all four workers are alive. -/
def allWorkersAlive : ℕ → List Bool := fun _ => [true, true, true, true]

/-- A well-formed record as produced by the parser. -/
def sampleRecord : AppsInstalled :=
  ⟨"idfa", "1rfw452y52g2gq4g", .flt (.finite 5555 (-2)), .flt (.finite 4242 (-2)), [1423, 43]⟩

/-! ### Claims about the record parser -/

/-- Claim C2 (code bug): the spec says `parse_appsinstalled` never raises,
but the source raises at concrete inputs.  On a well-formed 5-field line
whose apps field contains a non-numeric token, `int` raises `ValueError`
and the fallback comprehension `[int(a.strip()) for a in raw_apps.split(',') if a.isidigit()]`
calls the nonexistent string method `isidigit`, raising `AttributeError`
(the intended method, used in `prototest`, is `isdigit`).  A 6-field line
raises `ValueError` from the 5-way unpacking, which only guards `len < 5`. -/
theorem claim_C2_parse_raises :
    parse_appsinstalled "gaid\t7rfw452y52g2gq4g\t55.55\t42.42\t7423,foo" =
      .error .attributeError ∧
    parse_appsinstalled "gaid\t7rfw452y52g2gq4g\t55.55\t42.42\t7423\textra" =
      .error .valueError := by
  decide

/-- Claim C3 (code bug): for a well-formed 5-field line whose apps field is
`"12,xx,7"` the spec requires a record with `apps = [12, 7]` and one
diagnostic warning, but the fallback comprehension calls the nonexistent
method `isidigit` and raises `AttributeError`, so no record is produced. -/
theorem claim_C3_lenient_fallback_raises :
    parse_appsinstalled "idfa\t1rfw452y52g2gq4g\t55.55\t42.42\t12,xx,7" =
      .error .attributeError := by
  decide

/-- Claim C8: a line that strips and splits on tab into fewer than 5 fields
makes `parse_appsinstalled` return `None`, and so does a 5-field line whose
`dev_type` or `dev_id` field is empty. -/
theorem claim_C8_parse_rejects :
    (∀ line : String, (pySplit (pyStrip line) '\t').length < 5 →
      parse_appsinstalled line = .ok none) ∧
    (∀ line dt di la lo ra : String,
      pySplit (pyStrip line) '\t' = [dt, di, la, lo, ra] →
      dt = "" ∨ di = "" →
      parse_appsinstalled line = .ok none) := by
  constructor
  · intro line h
    simp only [parse_appsinstalled]
    rw [if_pos h]
  · intro line dt di la lo ra hsplit hempty
    simp only [parse_appsinstalled, hsplit]
    have h5 : ¬([dt, di, la, lo, ra].length < 5) := by simp
    rw [if_neg h5]
    rcases hempty with h | h <;> subst h <;> simp

/-- Claim C8 witness: `"a\tb"` has 2 fields and parses to `None`;
`"idfa\t\t1.0\t2.0\t1"` has an empty `dev_id` and parses to `None`. -/
theorem claim_C8_witness :
    ((pySplit (pyStrip "a\tb") '\t').length < 5 ∧
      parse_appsinstalled "a\tb" = .ok none) ∧
    (pySplit (pyStrip "idfa\t\t1.0\t2.0\t1") '\t' = ["idfa", "", "1.0", "2.0", "1"] ∧
      parse_appsinstalled "idfa\t\t1.0\t2.0\t1" = .ok none) :=
  ⟨⟨by decide, claim_C8_parse_rejects.1 "a\tb" (by decide)⟩,
   ⟨by decide,
    claim_C8_parse_rejects.2 "idfa\t\t1.0\t2.0\t1" "idfa" "" "1.0" "2.0" "1"
      (by decide) (Or.inr rfl)⟩⟩

/-- Claim C10: on a 5-field line with non-empty identity fields whose apps
tokens all parse as integers, if the latitude or the longitude field fails
to convert to a float, the parser still returns a record and the `lat` and
`lon` slots carry the original unparsed field strings (the tuple rebinding
`lat, lon = float(lat), float(lon)` assigns nothing when either conversion
raises), not a numeric default. -/
theorem claim_C10_geo_strings_kept :
    ∀ line dt di la lo ra : String,
      pySplit (pyStrip line) '\t' = [dt, di, la, lo, ra] →
      dt ≠ "" → di ≠ "" →
      (pySplit ra ',').all (fun a => (pyInt a).isSome) = true →
      (pyFloat la = none ∨ pyFloat lo = none) →
      parse_appsinstalled line =
        .ok (some ⟨dt, di, .str la, .str lo, (pySplit ra ',').filterMap pyInt⟩) := by
  intro line dt di la lo ra hsplit hdt hdi happs hgeo
  simp only [parse_appsinstalled, hsplit]
  have h5 : ¬([dt, di, la, lo, ra].length < 5) := by simp
  rw [if_neg h5]
  have hne : ¬(dt = "" || di = "") = true := by simp [hdt, hdi]
  rw [if_neg hne, if_pos happs]
  rcases hgeo with h | h
  · rw [h]
  · rw [h]
    cases pyFloat la <;> rfl

/-- Claim C10 witness: the line `"idfa\tid\tabc\t42.0\t1,2"` has an
unparsable latitude and yields a record carrying the strings `"abc"` and
`"42.0"` with `apps = [1, 2]`. -/
theorem claim_C10_witness :
    parse_appsinstalled "idfa\tid\tabc\t42.0\t1,2" =
      .ok (some ⟨"idfa", "id", .str "abc", .str "42.0",
        (pySplit "1,2" ',').filterMap pyInt⟩) :=
  claim_C10_geo_strings_kept "idfa\tid\tabc\t42.0\t1,2" "idfa" "id" "abc" "42.0" "1,2"
    (by decide) (by decide) (by decide) (by decide) (Or.inl (by decide))

/-! ### Claims about the write executor -/

/-- Claim C5: with `dry_run` true, `insert_appsinstalled` only logs and
falls through to `return True`: the returned value is `True`, the pool is
untouched, no connection is taken or created, no `set` call is issued and
no sleep occurs, for every record, shard address and store behaviour.
(The value encoder `appsinstalled_pb2` is not under `src/` and is modelled
from the spec as a total external encoder.) -/
theorem claim_C5_dry_run_no_store_access :
    ∀ (memc_pool : List Conn) (freshConn : Conn) (memc_addr : String)
      (ai : AppsInstalled) (setOutcome : ℕ → SetOutcome) (m : ℕ) (q : ℚ),
      insert_appsinstalled memc_pool freshConn memc_addr ai setOutcome true m q =
        { result := .ok true, pool := memc_pool, acquired := false
          attempts := 0, sleeps := [], key := ai.dev_type ++ ":" ++ ai.dev_id } := by
  intro memc_pool freshConn memc_addr ai setOutcome m q
  rfl

/-- Claim C6: `insert_appsinstalled` always returns a boolean — it never
propagates an exception to its caller — and whenever the network path
raises (the retry loop ends in an exception from `memc.set`), the outer
handler converts it into a `False` return value.  (The value encoder
`appsinstalled_pb2` is not under `src/` and is modelled from the spec as a
total external encoder, so serialization itself cannot raise.) -/
theorem claim_C6_exceptions_become_false :
    ∀ (memc_pool : List Conn) (freshConn : Conn) (memc_addr : String)
      (ai : AppsInstalled) (setOutcome : ℕ → SetOutcome) (dry_run : Bool) (m : ℕ) (q : ℚ),
      (∃ b : Bool,
        (insert_appsinstalled memc_pool freshConn memc_addr ai setOutcome dry_run m q).result =
          .ok b) ∧
      ((memcRetry setOutcome m q).1 = .error () →
        (insert_appsinstalled memc_pool freshConn memc_addr ai setOutcome false m q).result =
          .ok false) := by
  intro memc_pool freshConn memc_addr ai setOutcome dry_run m q
  constructor
  · cases dry_run
    · simp only [insert_appsinstalled]
      cases h : (memcRetry setOutcome m q).1 with
      | ok b => exact ⟨b, by simp [h]⟩
      | error e => exact ⟨false, by simp [h]⟩
    · exact ⟨true, rfl⟩
  · intro herr
    simp only [insert_appsinstalled]
    simp [herr]

/-- Claim C6 witness: with an empty pool and a store whose `set` raises on
the first attempt, the executor returns `False`. -/
theorem claim_C6_witness :
    (insert_appsinstalled [] 0 "127.0.0.1:33013" sampleRecord
        (fun _ => SetOutcome.exc) false 1 (3 / 10)).result = .ok false :=
  (claim_C6_exceptions_become_false [] 0 "127.0.0.1:33013" sampleRecord
      (fun _ => SetOutcome.exc) false 1 (3 / 10)).2 rfl

/-! ### Claims about the error-rate classification -/

/-- Claim C7: when `processed` is positive, the loader computes
`err_rate = errors / processed` and classifies the file as acceptable
exactly when the rate is below the fixed threshold `NORMAL_ERR_RATE = 1%`,
and as a high error rate otherwise; `processed = 100, errors = 0` is
acceptable while `processed = 99, errors = 2` is a high error rate; the
classification is informational only and the file path is returned in
every case. -/
theorem claim_C7_error_rate_classification :
    ∀ (fn : String) (processed errors : ℕ),
      (0 < processed →
        ((classifyLoad processed errors = .acceptable ↔
          (errors : ℚ) / (processed : ℚ) < NORMAL_ERR_RATE) ∧
         (classifyLoad processed errors = .highErrorRate ↔
          ¬((errors : ℚ) / (processed : ℚ) < NORMAL_ERR_RATE)))) ∧
      (handle_logfile_result fn processed errors).2 = fn ∧
      classifyLoad 100 0 = .acceptable ∧
      classifyLoad 99 2 = .highErrorRate := by
  intro fn processed errors
  refine ⟨?_, rfl, ?_, ?_⟩
  · intro hp
    have hne : processed ≠ 0 := Nat.pos_iff_ne_zero.mp hp
    unfold classifyLoad
    rw [if_pos hne]
    by_cases h : (errors : ℚ) / (processed : ℚ) < NORMAL_ERR_RATE
    · rw [if_pos h]
      simp [h]
    · rw [if_neg h]
      simp [h]
  · unfold classifyLoad NORMAL_ERR_RATE
    norm_num
  · unfold classifyLoad NORMAL_ERR_RATE
    norm_num

/-- Claim C7 witness: at `processed = 100, errors = 0` the hypotheses hold
and the classification is acceptable exactly when `0 / 100 < 1 / 100`. -/
theorem claim_C7_witness :
    (classifyLoad 100 0 = .acceptable ↔
      ((0 : ℕ) : ℚ) / ((100 : ℕ) : ℚ) < NORMAL_ERR_RATE) ∧
    (handle_logfile_result "f.tsv.gz" 100 0).2 = "f.tsv.gz" :=
  ⟨((claim_C7_error_rate_classification "f.tsv.gz" 100 0).1 (by decide)).1,
   (claim_C7_error_rate_classification "f.tsv.gz" 100 0).2.1⟩

/-! ### Claims about the retry loop -/

/-- The retry loop issues at most `fuel` `set` calls. -/
lemma retryGo_attempts_le (f : ℕ → SetOutcome) (q : ℚ) :
    ∀ (fuel n : ℕ), (retryGo f q n fuel).2.1 ≤ fuel := by
  intro fuel
  induction fuel with
  | zero => intro n; simp [retryGo]
  | succ fu ih =>
    intro n
    simp only [retryGo]
    cases f n
    · simp
    · simpa using Nat.succ_le_succ (ih (n + 1))
    · simp

/-- Shape of the sleeps of the retry loop: starting at attempt index `n`,
the sleeps are `q * 2 ^ (n + i)` for consecutive `i`, and there is exactly
one sleep per failed attempt — every attempt except a final successful or
raising one. -/
lemma retryGo_sleeps_shape (f : ℕ → SetOutcome) (q : ℚ) :
    ∀ (fuel n : ℕ), ∃ k : ℕ,
      (retryGo f q n fuel).2.2 =
        (List.range k).map (fun i => q * 2 ^ (n + i)) ∧
      (retryGo f q n fuel).2.1 =
        k + (match (retryGo f q n fuel).1 with
             | .ok false => 0
             | _ => 1) := by
  intro fuel
  induction fuel with
  | zero => intro n; exact ⟨0, rfl, rfl⟩
  | succ fu ih =>
    intro n
    simp only [retryGo]
    cases f n
    · exact ⟨0, rfl, rfl⟩
    · obtain ⟨k, ih1, ih2⟩ := ih (n + 1)
      refine ⟨k + 1, ?_, ?_⟩
      · rw [ih1, List.range_succ_eq_map, List.map_cons, List.map_map]
        refine congrArg₂ _ (by rw [Nat.add_zero]) ?_
        refine List.map_congr_left (fun i _ => ?_)
        show q * 2 ^ (n + 1 + i) = q * 2 ^ (n + (i + 1))
        rw [show n + 1 + i = n + (i + 1) from by omega]
      · show (retryGo f q (n + 1) fu).2.1 + 1 =
          k + 1 + match (retryGo f q (n + 1) fu).1 with
                  | Except.ok false => 0
                  | _ => 1
        omega
    · exact ⟨0, rfl, rfl⟩

/-- If the first success comes at attempt index `n + k` (all earlier
attempts failing) and the budget allows reaching it, the loop stops there:
`k + 1` `set` calls and one sleep after each of the `k` failures. -/
lemma retryGo_first_success (f : ℕ → SetOutcome) (q : ℚ) :
    ∀ (k n fuel : ℕ), k < fuel → f (n + k) = .succ →
      (∀ j, j < k → f (n + j) = .fail) →
      retryGo f q n fuel =
        (.ok true, k + 1, (List.range k).map (fun i => q * 2 ^ (n + i))) := by
  intro k
  induction k with
  | zero =>
    intro n fuel hlt hsucc _
    obtain ⟨fu, rfl⟩ := Nat.exists_eq_succ_of_ne_zero (Nat.pos_iff_ne_zero.mp hlt)
    rw [Nat.add_zero] at hsucc
    simp [retryGo, hsucc]
  | succ k ih =>
    intro n fuel hlt hsucc hfail
    obtain ⟨fu, rfl⟩ := Nat.exists_eq_succ_of_ne_zero
      (Nat.pos_iff_ne_zero.mp (Nat.lt_of_le_of_lt (Nat.zero_le _) hlt))
    have h0 : f n = .fail := by simpa using hfail 0 (Nat.succ_pos k)
    have hrec := ih (n + 1) fu (Nat.lt_of_succ_lt_succ hlt)
      (by rw [← hsucc]; congr 1; omega)
      (fun j hj => by rw [← hfail (j + 1) (Nat.succ_lt_succ hj)]; congr 1; omega)
    simp only [retryGo, h0, hrec]
    refine congrArg _ (congrArg₂ _ rfl ?_)
    simp only [List.range_succ_eq_map, List.map_cons, List.map_map]
    refine congrArg₂ _ (by rw [Nat.add_zero]) ?_
    refine List.map_congr_left (fun i _ => ?_)
    show q * 2 ^ (n + 1 + i) = q * 2 ^ (n + (i + 1))
    rw [show n + 1 + i = n + (i + 1) from by omega]

/-- Claim C4 counterexample: with the default configuration
`MEMC_MAX_RETRIES = 1` and `MEMC_BACKOFF_FACTOR = 0.3` and a store whose
`set` always returns `False`, the loop issues its single `set` call and
then sleeps 0.3 s — one sleep for one attempt, so a sleep also occurs
after the final failed attempt, not only between consecutive attempts. -/
theorem claim_C4_counterexample :
    (memcRetry (fun _ => SetOutcome.fail) 1 (3 / 10)).2.1 = 1 ∧
    (memcRetry (fun _ => SetOutcome.fail) 1 (3 / 10)).2.2 = [3 / 10] ∧
    ¬((memcRetry (fun _ => SetOutcome.fail) 1 (3 / 10)).2.2.length ≤
      (memcRetry (fun _ => SetOutcome.fail) 1 (3 / 10)).2.1 - 1) := by
  refine ⟨rfl, ?_, by decide⟩
  show [(3 / 10 : ℚ) * 2 ^ 0] = [3 / 10]
  norm_num

/-- Claim C4 as amended: the store `set` is attempted at most `max_retries`
times; the first successful attempt stops the loop; a sleep of
`backoff_factor * 2 ^ attempt_index` seconds follows every failed attempt —
between consecutive attempts and also after a final failed attempt; with
`max_retries = 3` and `backoff_factor = 0.3`, a store failing twice then
succeeding gives exactly two sleeps, 0.3 s then 0.6 s, before success. -/
theorem claim_C4_retry_backoff :
    ∀ (setOutcome : ℕ → SetOutcome) (m : ℕ) (q : ℚ),
      (memcRetry setOutcome m q).2.1 ≤ m ∧
      (memcRetry setOutcome m q).2.2 =
        (List.range (memcRetry setOutcome m q).2.2.length).map (fun i => q * 2 ^ i) ∧
      (memcRetry setOutcome m q).2.1 =
        (memcRetry setOutcome m q).2.2.length +
          (match (memcRetry setOutcome m q).1 with
           | .ok false => 0
           | _ => 1) ∧
      (∀ k, k < m → setOutcome k = .succ → (∀ j, j < k → setOutcome j = .fail) →
        memcRetry setOutcome m q =
          (.ok true, k + 1, (List.range k).map (fun i => q * 2 ^ i))) ∧
      memcRetry (fun n => if n < 2 then SetOutcome.fail else SetOutcome.succ) 3 (3 / 10) =
        (.ok true, 3, [3 / 10, 3 / 5]) := by
  intro setOutcome m q
  obtain ⟨k, h1, h2⟩ := retryGo_sleeps_shape setOutcome q m 0
  have hk : (memcRetry setOutcome m q).2.2.length = k := by
    rw [memcRetry, h1, List.length_map, List.length_range]
  refine ⟨retryGo_attempts_le setOutcome q m 0, ?_, ?_, ?_, ?_⟩
  · rw [hk, memcRetry, h1]
    exact List.map_congr_left (fun i _ => by rw [Nat.zero_add])
  · rw [hk, memcRetry, h2]
  · intro j hj hsucc hfail
    have := retryGo_first_success setOutcome q j 0 m hj
      (by simpa using hsucc) (fun i hi => by simpa using hfail i hi)
    rw [memcRetry, this]
    refine congrArg _ (congrArg₂ _ rfl ?_)
    exact List.map_congr_left (fun i _ => by rw [Nat.zero_add])
  · have := retryGo_first_success (fun n => if n < 2 then SetOutcome.fail else SetOutcome.succ)
      (3 / 10) 2 0 3 (by omega) (by norm_num)
      (fun j hj => by
        show (if 0 + j < 2 then SetOutcome.fail else SetOutcome.succ) = SetOutcome.fail
        rw [Nat.zero_add]
        exact if_pos hj)
    rw [memcRetry, this]
    norm_num [List.range_succ]

/-- Claim C4 witness: a store succeeding on its first attempt under a
budget of one retry stops after one `set` call with no sleep. -/
theorem claim_C4_witness :
    memcRetry (fun _ => SetOutcome.succ) 1 (3 / 10) =
      (.ok true, 0 + 1, (List.range 0).map (fun i => (3 / 10 : ℚ) * 2 ^ i)) :=
  (claim_C4_retry_backoff (fun _ => SetOutcome.succ) 1 (3 / 10)).2.2.2.1 0
    (by decide) rfl (fun j hj => absurd hj (Nat.not_lt_zero j))

/-! ### Claims about the streaming loop -/

/-- Claim C1 counterexample: the liveness check is
`all(thread.is_alive() for thread in workers)`, so streaming stops as soon
as ANY worker has terminated, not only when every worker has.  With one of
the four workers dead and three alive, a file of two well-formed, routable
`idfa` records has only its first record enqueued: the check after the
first enqueue fails and the loop breaks, although three workers are alive
and the second line parses and routes successfully. -/
theorem claim_C1_counterexample :
    [false, true, true, true].any id = true ∧
    parse_appsinstalled "idfa\tid2\t1.0\t2.0\t7" =
      .ok (some ⟨"idfa", "id2", .flt (.finite 10 (-1)), .flt (.finite 20 (-1)), [7]⟩) ∧
    deviceMemcGet defaultOpts "idfa" = some "127.0.0.1:33013" ∧
    streamLines defaultOpts oneWorkerDead
        ["idfa\tid1\t1.0\t2.0\t5", "idfa\tid2\t1.0\t2.0\t7"] ⟨0, [], 0⟩ =
      .ok ⟨0, [⟨"127.0.0.1:33013", "127.0.0.1:33013",
        ⟨"idfa", "id1", .flt (.finite 10 (-1)), .flt (.finite 20 (-1)), [5]⟩, false⟩], 1⟩ := by
  refine ⟨rfl, by decide, rfl, by decide⟩

/-- Claim C1 as amended: after each enqueue the loader evaluates
`all(thread.is_alive() for thread in workers)` and breaks as soon as at
least one worker has terminated; as long as every worker is alive at every
check, the streaming loop never stops early and behaves exactly like the
loop without the break — every successfully parsed and routed record of
the file is enqueued. -/
theorem claim_C1_liveness_stop :
    ∀ (o : Options) (aliveAt : ℕ → List Bool),
      (∀ k, (aliveAt k).all id = true) →
      ∀ (lines : List String) (st : StreamState),
        streamLines o aliveAt lines st = streamLinesNoStop o lines st := by
  intro o aliveAt hall lines
  induction lines with
  | nil => intro st; rfl
  | cons l rest ih =>
    intro st
    simp only [streamLines, streamLinesNoStop]
    by_cases hb : pyStrip l = ""
    · rw [if_pos hb, if_pos hb, ih]
    · rw [if_neg hb, if_neg hb]
      cases parse_appsinstalled (pyStrip l) with
      | error e => rfl
      | ok oai =>
        cases oai with
        | none => exact ih _
        | some ai =>
          dsimp only
          cases deviceMemcGet o ai.dev_type with
          | none => exact ih _
          | some memc_addr =>
            dsimp only
            by_cases ha : memc_addr = ""
            · rw [if_pos ha, if_pos ha]
              exact ih _
            · rw [if_neg ha, if_neg ha, hall st.checks, if_pos rfl]
              exact ih _

/-- Claim C1 witness: with all four workers alive the one-line stream
equals the break-free loop. -/
theorem claim_C1_witness :
    streamLines defaultOpts allWorkersAlive ["idfa\tid1\t1.0\t2.0\t5"] ⟨0, [], 0⟩ =
      streamLinesNoStop defaultOpts ["idfa\tid1\t1.0\t2.0\t5"] ⟨0, [], 0⟩ :=
  claim_C1_liveness_stop defaultOpts allWorkersAlive (fun _ => rfl)
    ["idfa\tid1\t1.0\t2.0\t5"] ⟨0, [], 0⟩

/-- Claim C9: a line that parses to a record whose device type has no
shard address in the routing table makes the streaming loop increment the
file error counter and move on: nothing is enqueued for the record, so no
write attempt can ever be generated for it, and no liveness check runs. -/
theorem claim_C9_unknown_device_type :
    ∀ (o : Options) (aliveAt : ℕ → List Bool) (l : String) (rest : List String)
      (st : StreamState) (ai : AppsInstalled),
      pyStrip l ≠ "" →
      parse_appsinstalled (pyStrip l) = .ok (some ai) →
      deviceMemcGet o ai.dev_type = none →
      streamLines o aliveAt (l :: rest) st =
        streamLines o aliveAt rest ⟨st.errors + 1, st.enqueued, st.checks⟩ := by
  intro o aliveAt l rest st ai hne hp hroute
  simp only [streamLines]
  rw [if_neg hne, hp]
  dsimp only
  rw [hroute]

/-- Claim C9 witness: the record of the line `"foo\tid\t1.0\t2.0\t1"` has
device type `"foo"`, which the default routing table does not map; the
error counter goes from 0 to 1 and nothing is enqueued. -/
theorem claim_C9_witness :
    streamLines defaultOpts allWorkersAlive ["foo\tid\t1.0\t2.0\t1"] ⟨0, [], 0⟩ =
      streamLines defaultOpts allWorkersAlive [] ⟨0 + 1, [], 0⟩ :=
  claim_C9_unknown_device_type defaultOpts allWorkersAlive "foo\tid\t1.0\t2.0\t1" []
    ⟨0, [], 0⟩ ⟨"foo", "id", .flt (.finite 10 (-1)), .flt (.finite 20 (-1)), [1]⟩
    (by decide) (by decide) rfl

end MemcLoad
